import Mathlib

/-!
Shallow embedding of `src/server.js` of node-mock-http-server: the handler
table, registration defaults (`will`), the matcher/dispatcher
(`_handleMockedRequest`), body/status resolution (`_getResponseBody`,
`_getResponseStatus`), the default 404 middleware (`_handleDefaultRequest`),
and the inactive branch of `stop`.

JavaScript values appearing in handler configuration and responses are
modelled by `JVal`. JS objects used as header maps are modelled as insertion
ordered association lists with unique keys; underscore's `_.extend`
(which copies each source key over the destination IN PLACE, replacing an
existing key's value at its position and appending new keys) is `extendObj`.
-/

namespace MockHttp

/-- A JavaScript value as used in this program: header values, statuses and
bodies. Buffers are byte sequences (`vBuf`). -/
inductive JVal where
  | vNull
  | vUndef
  | vBool (b : Bool)
  | vNum (n : Int)
  | vStr (s : String)
  | vBuf (bytes : List Nat)
deriving DecidableEq, Repr

/-- JS truthiness for the values we model: `null`, `undefined`, `false`,
`0` and `""` are falsy; everything else (including any Buffer) is truthy. -/
def falsy : JVal → Bool
  | .vNull => true
  | .vUndef => true
  | .vBool b => !b
  | .vNum n => decide (n = 0)
  | .vStr s => decide (s = "")
  | .vBuf _ => false

/-- JS `a || b`. -/
def jsOr (a b : JVal) : JVal := if falsy a then b else a

/-- Header/field maps: insertion-ordered association lists (JS objects). -/
abbrev Obj := List (String × JVal)

/-- Set key `k` to `v` in object `o`: replace in place if present, else
append (JS property assignment semantics). -/
def objSet (o : Obj) (k : String) (v : JVal) : Obj :=
  if o.any (fun p => p.1 = k) then
    o.map (fun p => if p.1 = k then (k, v) else p)
  else
    o ++ [(k, v)]

/-- Underscore's `_.extend(dst, src)`: copy every key of `src` (in its
insertion order) onto `dst`. The JS call mutates `dst`; here the mutated
object is the return value, and call sites thread it explicitly. -/
def extendObj (dst src : Obj) : Obj :=
  src.foldl (fun acc p => objSet acc p.1 p.2) dst

/-- The inbound request as the dispatcher sees it after `url.parse`:
`method` is the HTTP verb, `pathname` the parsed path (query stripped),
`query` the parsed query parameters. Multipart decoding (an external
collaborator) may have attached `body` fields. -/
structure Request where
  method : String
  pathname : String
  query : List (String × String)
  body : List (String × JVal)
deriving DecidableEq, Repr

/-- `reply.status`: a literal value, or a function of the request
(invoked synchronously). -/
inductive StatusSpec where
  | lit (v : JVal)
  | fn (f : Request → JVal)

/-- `reply.body`: a literal value; a function of declared arity ≤ 1
(`fnSync`, invoked synchronously with the request); or a function of
declared arity ≥ 2 (`fnAsync`, invoked with the request and a
continuation). An async function that never invokes its continuation is
modelled by returning `none`; `some v` means the continuation is
eventually called with `v`. -/
inductive BodySpec where
  | lit (v : JVal)
  | fnSync (f : Request → JVal)
  | fnAsync (f : Request → Option JVal)

/-- A handler's `reply` configuration after registration defaults. -/
structure Reply where
  status : StatusSpec
  body : BodySpec
  headers : Obj
  headersOverrides : Option Obj

/-- A registered handler. `filter` is `none` when the `filter` field is
absent or falsy (the guard `handler.filter && ...` skips it either way). -/
structure Handler where
  «when» : String
  «on» : String
  filter : Option (Request → JVal)
  reply : Reply
  delay : Nat

/-- `_getResponseBody(handler, req, callback)`: a non-function body is used
directly (falsy → `""`); an arity ≤ 1 function is invoked synchronously
(falsy return → `""`); an arity ≥ 2 function is invoked with the request and
the callback as continuation. `none` means the callback is never invoked
(the response hangs). -/
def getResponseBody (handler : Handler) (req : Request) : Option JVal :=
  match handler.reply.body with
  | .lit v => some (jsOr v (.vStr ""))
  | .fnSync f => some (jsOr (f req) (.vStr ""))
  | .fnAsync f => f req

/-- `_getResponseStatus(handler, req, callback)`: a non-function status is
used directly (falsy → `0`); a function is invoked synchronously with the
request (falsy return → `0`). -/
def getResponseStatus (handler : Handler) (req : Request) : JVal :=
  match handler.reply.status with
  | .lit v => jsOr v (.vNum 0)
  | .fn f => jsOr (f req) (.vNum 0)

/-- `Buffer.isBuffer(content) ? content.length
: Buffer.byteLength(content, "utf8")`: byte count of a Buffer, UTF-8 byte
length of a string. (A non-string, non-Buffer content would throw in
`Buffer.byteLength`; no claim exercises that case.) -/
def byteLength : JVal → Nat
  | .vBuf bytes => bytes.length
  | .vStr s => s.utf8ByteSize
  | _ => 0

/-- A response as written to the transport: the status passed to
`res.writeHead`, the headers sent (after `null` removal), and the content
written by `res.write` (`none` when the method is `HEAD`, where `res.write`
is skipped). -/
structure Response where
  status : JVal
  headers : Obj
  content : Option JVal
deriving DecidableEq, Repr

/-- Drop entries whose value is exactly `null` (the
`if (value !== null) headersToSend[name] = value` loop). -/
def removeNullHeaders (headers : Obj) : Obj :=
  headers.filter (fun p => !(decide (p.2 = JVal.vNull)))

/-- JS `String.prototype.toUpperCase` as applied to the ASCII method names
this program compares (`handler.when.toUpperCase()`). -/
def toUpperCase (s : String) : String := ⟨s.data.map Char.toUpper⟩

/-- The matching guard of `_handleMockedRequest`, negated: a handler
matches iff its `when` is `"*"` or equals the uppercased request method,
its `on` equals the parsed pathname, and its filter (when present) returns
exactly `true`. -/
def matchesReq (handler : Handler) (req : Request) : Bool :=
  (decide (handler.«when» = "*") || decide (req.method = toUpperCase handler.«when»))
    && decide (req.pathname = handler.«on»)
    && (match handler.filter with
        | none => true
        | some f => decide (f req = .vBool true))

/-- The body of the first-match branch of `_handleMockedRequest`: resolve
body, then status; compute the content length; `_.extend` the computed
`content-length` and the `headersOverrides` onto `handler.reply.headers`
(note: this MUTATES the stored handler's headers object — the returned
handler carries the merged object); remove `null`-valued headers; write
status and headers, write the content unless the method is `HEAD`.
Returns the (possibly mutated) handler and the response, `none` when the
async body never invokes its continuation. -/
def handleMatched (handler : Handler) (req : Request) : Handler × Option Response :=
  match getResponseBody handler req with
  | none => (handler, none)
  | some content =>
    let status := getResponseStatus handler req
    let length := byteLength content
    let headers := extendObj
      (extendObj handler.reply.headers [("content-length", .vNum length)])
      (handler.reply.headersOverrides.getD [])
    let headersToSend := removeNullHeaders headers
    ({ handler with reply := { handler.reply with headers := headers } },
     some { status := status
            headers := headersToSend
            content := if req.method = "HEAD" then none else some content })

/-- Outcome of `_handleMockedRequest` on the handler table: a response was
written; a handler matched but its async body never completed (the request
hangs); or no handler matched (`next()` is called). -/
inductive Outcome where
  | sent (r : Response)
  | hung
  | unhandled
deriving DecidableEq, Repr

/-- `_handleMockedRequest`: scan the table in registration order; once a
handler matches, `handled` is set, so every later iteration returns
immediately (its filter is not invoked, its reply not resolved). Returns
the table after the scan (the matched handler's headers object having been
mutated by the merge) and the outcome. -/
def handleMockedRequest (handlers : List Handler) (req : Request) :
    List Handler × Outcome :=
  match handlers with
  | [] => ([], .unhandled)
  | handler :: rest =>
    if matchesReq handler req then
      match handleMatched handler req with
      | (handler', some r) => (handler' :: rest, .sent r)
      | (handler', none) => (handler' :: rest, .hung)
    else
      let (rest', outcome) := handleMockedRequest rest req
      (handler :: rest', outcome)

/-- `_handleDefaultRequest`: unconditionally status 404, headers
`content-type: plain/text` and `content-length: 9`, body `"Not Found"`
(the request method is never consulted). -/
def defaultResponse : Response :=
  { status := .vNum 404
    headers := [("content-type", .vStr "plain/text"),
                ("content-length", .vNum 9)]
    content := some (.vStr "Not Found") }

/-- The connect stack `_handleMockedRequest` → `_handleDefaultRequest`:
an unhandled request falls through to the fixed default response. -/
def serve (handlers : List Handler) (req : Request) : List Handler × Outcome :=
  match handleMockedRequest handlers req with
  | (handlers', .unhandled) => (handlers', .sent defaultResponse)
  | result => result

/-- A handler descriptor as passed to `will`, before defaults: `none`
marks an absent field. -/
structure ReplyDesc where
  status : Option StatusSpec
  body : Option BodySpec
  headers : Option Obj
  headersOverrides : Option Obj

/-- A registration descriptor, before defaults. -/
structure HandlerDesc where
  «when» : Option String
  «on» : String
  filter : Option (Request → JVal)
  reply : Option ReplyDesc
  delay : Option Nat

/-- `this.will(handler)`: extend `{status: 200, body: ""}` with the given
reply, extend `{content-type: application/json}` with the given headers,
default `when` to `"GET"`, append to the table. The JS method returns
`this`; here the updated table is the server state returned for chaining. -/
def will (handlers : List Handler) (d : HandlerDesc) : List Handler :=
  let r := match d.reply with
    | none => (none, none, none, none)
    | some rd => (rd.status, rd.body, rd.headers, rd.headersOverrides)
  handlers ++
    [{ «when» := d.«when».getD "GET"
       «on» := d.«on»
       filter := d.filter
       reply :=
         { status := r.1.getD (.lit (.vNum 200))
           body := r.2.1.getD (.lit (.vStr ""))
           headers := extendObj [("content-type", .vStr "application/json")]
             (r.2.2.1.getD [])
           headersOverrides := r.2.2.2 }
       delay := d.delay.getD 0 }]

/-- Server lifecycle state visible to `stop`: whether a listener is active
(`server !== null`), the handler table, and the tracked connection count. -/
structure ServerState where
  serverActive : Bool
  handlers : List Handler
  connections : Nat

/-- Result of `stop(callback)`: either the callback was invoked
synchronously with the state as shown, or the listener close was initiated
and completion awaits close events. -/
inductive StopResult where
  | immediate (s : ServerState)
  | closing

/-- `this.stop(callback)`: `if (!server) { return callback(); }` — with no
active listener the callback runs at once and nothing is touched. The
active branch registers close handlers and calls `server.close()`; its
event-driven completion is outside what the claims need, so it is left
abstract as `closing`. -/
def stop (s : ServerState) : StopResult :=
  if s.serverActive then .closing else .immediate s


/-! ## Concrete fixtures used by witnesses -/

/-- A parsed `GET /ping` request. -/
def reqPing : Request := { method := "GET", pathname := "/ping", query := [], body := [] }

/-- A parsed `HEAD /missing` request. -/
def reqHeadMissing : Request :=
  { method := "HEAD", pathname := "/missing", query := [], body := [] }

/-- A handler registered on a different path. -/
def hOther : Handler :=
  { «when» := "GET", «on» := "/other", filter := none,
    reply := { status := .lit (.vNum 200), body := .lit (.vStr "other"),
               headers := [("content-type", .vStr "application/json")],
               headersOverrides := none },
    delay := 0 }

/-- First handler on `/ping`: status 201, two-byte Buffer body. -/
def hPing1 : Handler :=
  { «when» := "GET", «on» := "/ping", filter := none,
    reply := { status := .lit (.vNum 201), body := .lit (.vBuf [1, 2]),
               headers := [("content-type", .vStr "application/json")],
               headersOverrides := none },
    delay := 0 }

/-- Second handler on `/ping`: status 202, three-byte Buffer body. -/
def hPing2 : Handler :=
  { «when» := "GET", «on» := "/ping", filter := none,
    reply := { status := .lit (.vNum 202), body := .lit (.vBuf [9, 9, 9]),
               headers := [("content-type", .vStr "application/json")],
               headersOverrides := none },
    delay := 0 }

/-! ## Helper lemmas -/

/-- A scan over handlers none of which matches leaves the table unchanged
and calls `next()`. -/
lemma scan_no_match (handlers : List Handler) (req : Request)
    (hno : ∀ h ∈ handlers, matchesReq h req = false) :
    handleMockedRequest handlers req = (handlers, .unhandled) := by
  induction handlers with
  | nil => simp [handleMockedRequest]
  | cons g rest ih =>
    have hg : matchesReq g req = false := hno g (List.mem_cons_self _ _)
    have hrest := ih (fun x hx => hno x (List.mem_cons_of_mem _ hx))
    simp [handleMockedRequest, hg, hrest]

/-! ## Claims -/

/-- C1: for every handler table and inbound request, if two or more
registered handlers match, the response is the one produced by the
first-registered matching handler, and nothing after the first match
contributes: the scan result is fully determined by the prefix of
non-matching handlers and the first matching handler, with the tail `t`
returned untouched (the equation holds uniformly in `t`, so no later filter
is invoked and no later reply is resolved). -/
theorem first_match_wins (pre t : List Handler) (h : Handler) (req : Request)
    (hpre : ∀ g ∈ pre, matchesReq g req = false)
    (hm : matchesReq h req = true) :
    handleMockedRequest (pre ++ h :: t) req =
      (pre ++ (handleMatched h req).1 :: t,
       match (handleMatched h req).2 with
       | some r => Outcome.sent r
       | none => Outcome.hung) := by
  induction pre with
  | nil =>
    simp only [List.nil_append]
    rcases hh : handleMatched h req with ⟨h', r⟩
    cases r <;> simp [handleMockedRequest, hm, hh]
  | cons g gs ih =>
    have hg : matchesReq g req = false := hpre g (List.mem_cons_self _ _)
    have hrest := ih (fun x hx => hpre x (List.mem_cons_of_mem _ hx))
    simp [handleMockedRequest, hg, hrest]

/-- Witness for C1: with a non-matching handler first and two matching
handlers on `/ping`, the scan is decided by `hPing1` alone and `hPing2`
is returned untouched. -/
theorem first_match_wins_witness :
    matchesReq hPing1 reqPing = true ∧
    handleMockedRequest ([hOther] ++ hPing1 :: [hPing2]) reqPing =
      ([hOther] ++ (handleMatched hPing1 reqPing).1 :: [hPing2],
       match (handleMatched hPing1 reqPing).2 with
       | some r => Outcome.sent r
       | none => Outcome.hung) :=
  ⟨by decide, first_match_wins [hOther] [hPing2] hPing1 reqPing (by decide) (by decide)⟩

/-- C2: every request matching no registered handler (HEAD included, empty
table included) receives exactly status 404 with headers
`content-type: plain/text`, `content-length: 9` and body `"Not Found"`,
and the handler table is unchanged. -/
theorem no_match_gets_404 (handlers : List Handler) (req : Request)
    (hno : ∀ h ∈ handlers, matchesReq h req = false) :
    serve handlers req =
      (handlers,
       .sent { status := .vNum 404
               headers := [("content-type", .vStr "plain/text"),
                           ("content-length", .vNum 9)]
               content := some (.vStr "Not Found") }) := by
  have hscan := scan_no_match handlers req hno
  simp [serve, hscan, defaultResponse]

/-- Witness for C2: a `HEAD /missing` request against the empty table and
against a table whose only handler is on another path both get the fixed
404 response. -/
theorem no_match_gets_404_witness :
    serve [] reqHeadMissing =
      ([],
       .sent { status := .vNum 404
               headers := [("content-type", .vStr "plain/text"),
                           ("content-length", .vNum 9)]
               content := some (.vStr "Not Found") }) ∧
    serve [hOther] reqHeadMissing =
      ([hOther],
       .sent { status := .vNum 404
               headers := [("content-type", .vStr "plain/text"),
                           ("content-length", .vNum 9)]
               content := some (.vStr "Not Found") }) :=
  ⟨no_match_gets_404 [] reqHeadMissing (by simp),
   no_match_gets_404 [hOther] reqHeadMissing (by decide)⟩

/-- Status literal `0` for the C5 witness. -/
def hZeroStatus : Handler :=
  { «when» := "GET", «on» := "/ping", filter := none,
    reply := { status := .lit (.vNum 0), body := .lit (.vStr ""),
               headers := [("content-type", .vStr "application/json")],
               headersOverrides := none },
    delay := 0 }

/-- Function-valued status for the C5 witness. -/
def hFnStatus : Handler :=
  { «when» := "GET", «on» := "/ping", filter := none,
    reply := { status := .fn (fun _ => .vNum 418), body := .lit (.vStr ""),
               headers := [("content-type", .vStr "application/json")],
               headersOverrides := none },
    delay := 0 }

/-- C5: status resolution — a non-function `reply.status` is used directly
with any falsy value (a literal `0` included) passed through as `0`
uncorrected; a function `reply.status` is invoked synchronously with the
request and its return value used, falsy returns resolving to `0`. -/
theorem status_resolution (handler : Handler) (req : Request) :
    (∀ v, handler.reply.status = .lit v →
        getResponseStatus handler req = if falsy v then .vNum 0 else v) ∧
    (∀ f, handler.reply.status = .fn f →
        getResponseStatus handler req = if falsy (f req) then .vNum 0 else f req) := by
  constructor <;> intro x hx <;> simp [getResponseStatus, hx, jsOr]

/-- Witness for C5: a literal status `0` resolves to `0`; a function status
is invoked and its value `418` used. -/
theorem status_resolution_witness :
    getResponseStatus hZeroStatus reqPing = .vNum 0 ∧
    getResponseStatus hFnStatus reqPing = .vNum 418 :=
  ⟨((status_resolution hZeroStatus reqPing).1 (.vNum 0) rfl).trans (by decide),
   ((status_resolution hFnStatus reqPing).2 (fun _ => .vNum 418) rfl).trans (by decide)⟩

/-- Synchronous function body (declared arity ≤ 1) for the C6 witness. -/
def hSyncBody : Handler :=
  { «when» := "GET", «on» := "/ping", filter := none,
    reply := { status := .lit (.vNum 200),
               body := .fnSync (fun r => .vStr r.pathname),
               headers := [("content-type", .vStr "application/json")],
               headersOverrides := none },
    delay := 0 }

/-- Asynchronous body (declared arity ≥ 2) that never calls its
continuation, for the C6 witness. -/
def hAsyncNone : Handler :=
  { «when» := "GET", «on» := "/ping", filter := none,
    reply := { status := .lit (.vNum 200),
               body := .fnAsync (fun _ => none),
               headers := [("content-type", .vStr "application/json")],
               headersOverrides := none },
    delay := 0 }

/-- C6: body resolution by shape — a non-function body is used directly
(falsy → `""`); an arity ≤ 1 function is invoked synchronously (falsy
return → `""`); an arity ≥ 2 function is invoked with the request and a
continuation, the response using exactly the continuation value; and when
the continuation never fires the matched request produces no response at
all (the handler is left untouched, the scan still consumes the request),
status resolution never starting — body resolution completes before status
resolution begins. -/
theorem body_resolution (handler : Handler) (req : Request) :
    (∀ v, handler.reply.body = .lit v →
        getResponseBody handler req = some (if falsy v then .vStr "" else v)) ∧
    (∀ f, handler.reply.body = .fnSync f →
        getResponseBody handler req = some (if falsy (f req) then .vStr "" else f req)) ∧
    (∀ f, handler.reply.body = .fnAsync f → getResponseBody handler req = f req) ∧
    (∀ f, handler.reply.body = .fnAsync f → f req = none →
        handleMatched handler req = (handler, none) ∧
        ∀ t, matchesReq handler req = true →
          handleMockedRequest (handler :: t) req = (handler :: t, .hung)) := by
  refine ⟨?_, ?_, ?_, ?_⟩
  · intro v hv; simp [getResponseBody, hv, jsOr]
  · intro f hf; simp [getResponseBody, hf, jsOr]
  · intro f hf; simp [getResponseBody, hf]
  · intro f hf hnone
    have hmat : handleMatched handler req = (handler, none) := by
      simp [handleMatched, getResponseBody, hf, hnone]
    refine ⟨hmat, fun t hm => ?_⟩
    simp [handleMockedRequest, hm, hmat]

/-- Witness for C6: the synchronous body function is applied to the request
(yielding the pathname), and the continuation-less asynchronous body hangs
the matched request. -/
theorem body_resolution_witness :
    getResponseBody hSyncBody reqPing = some (.vStr "/ping") ∧
    handleMockedRequest [hAsyncNone] reqPing = ([hAsyncNone], .hung) :=
  ⟨((body_resolution hSyncBody reqPing).2.1 (fun r => .vStr r.pathname) rfl).trans
      (by decide),
   ((body_resolution hAsyncNone reqPing).2.2.2 (fun _ => none) rfl rfl).2 []
      (by decide)⟩

/-- C9: `stop` on a server whose listener is not active invokes the
callback immediately with every piece of server state untouched. -/
theorem stop_never_started (s : ServerState) (h : s.serverActive = false) :
    stop s = .immediate s := by
  simp [stop, h]

/-- Witness for C9: stopping a never-started server (no listener, empty
table, no connections) completes immediately with that same state. -/
theorem stop_never_started_witness :
    stop { serverActive := false, handlers := [], connections := 0 } =
      .immediate { serverActive := false, handlers := [], connections := 0 } :=
  stop_never_started _ rfl

/-- A handler whose filter returns the truthy non-`true` value `1`, for the
C10 witness. -/
def hFilterOne : Handler :=
  { «when» := "GET", «on» := "/ping", filter := some (fun _ => .vNum 1),
    reply := { status := .lit (.vNum 200), body := .lit (.vStr "filtered"),
               headers := [("content-type", .vStr "application/json")],
               headersOverrides := none },
    delay := 0 }

/-- C10: with a filter present, a handler matches only when the filter
returns exactly the boolean `true`; any other return value (truthy values
like `1` included) makes the handler not match, and the scan proceeds to
the later handlers. -/
theorem filter_exact_true (handler : Handler) (req : Request)
    (f : Request → JVal) (hf : handler.filter = some f) :
    (matchesReq handler req = true ↔
      ((handler.«when» = "*" ∨ req.method = toUpperCase handler.«when») ∧
        req.pathname = handler.«on» ∧ f req = .vBool true)) ∧
    (f req ≠ .vBool true →
      matchesReq handler req = false ∧
      ∀ t, handleMockedRequest (handler :: t) req =
        (handler :: (handleMockedRequest t req).1,
         (handleMockedRequest t req).2)) := by
  constructor
  · simp [matchesReq, hf, and_assoc]
  · intro hne
    have hm : matchesReq handler req = false := by
      simp [matchesReq, hf, hne]
    refine ⟨hm, fun t => ?_⟩
    rcases ht : handleMockedRequest t req with ⟨rest, outcome⟩
    simp [handleMockedRequest, hm, ht]

/-- Witness for C10: the filter returning `1` (truthy but not `true`)
does not match, and the scan falls through to the later handler. -/
theorem filter_exact_true_witness :
    matchesReq hFilterOne reqPing = false ∧
    handleMockedRequest [hFilterOne, hPing1] reqPing =
      (hFilterOne :: (handleMockedRequest [hPing1] reqPing).1,
       (handleMockedRequest [hPing1] reqPing).2) :=
  ⟨((filter_exact_true hFilterOne reqPing (fun _ => .vNum 1) rfl).2 (by decide)).1,
   ((filter_exact_true hFilterOne reqPing (fun _ => .vNum 1) rfl).2 (by decide)).2
      [hPing1]⟩

/-- The handler that `will` appends for a descriptor `d`: the normal form
of the two `_.extend` default applications in the source. -/
def registeredHandler (d : HandlerDesc) : Handler :=
  { «when» := d.«when».getD "GET"
    «on» := d.«on»
    filter := d.filter
    reply :=
      { status := (d.reply.bind ReplyDesc.status).getD (.lit (.vNum 200))
        body := (d.reply.bind ReplyDesc.body).getD (.lit (.vStr ""))
        headers := extendObj [("content-type", .vStr "application/json")]
          ((d.reply.bind ReplyDesc.headers).getD [])
        headersOverrides := d.reply.bind ReplyDesc.headersOverrides }
    delay := d.delay.getD 0 }

/-- `will` is exactly an append of the defaulted handler. -/
lemma will_eq (handlers : List Handler) (d : HandlerDesc) :
    will handlers d = handlers ++ [registeredHandler d] := by
  cases hd : d.reply <;> simp [will, registeredHandler, hd]

/-- C7: registration applies defaults exactly for absent fields — missing
`when` becomes `"GET"`, missing `reply.status` becomes `200`, missing
`reply.body` becomes `""`, missing `reply.headers` yields only
`content-type: application/json` (a present headers mapping keeps every
entry, the `content-type` default applying beneath it) — while present
fields, falsy ones included, are kept (`Option.getD` keeps any `some`);
the handler is appended to the table and the updated table is returned,
so registrations chain. -/
theorem registration_defaults (handlers : List Handler) (d : HandlerDesc) :
    will handlers d = handlers ++
      [{ «when» := d.«when».getD "GET"
         «on» := d.«on»
         filter := d.filter
         reply :=
           { status := (d.reply.bind ReplyDesc.status).getD (.lit (.vNum 200))
             body := (d.reply.bind ReplyDesc.body).getD (.lit (.vStr ""))
             headers := extendObj [("content-type", .vStr "application/json")]
               ((d.reply.bind ReplyDesc.headers).getD [])
             headersOverrides := d.reply.bind ReplyDesc.headersOverrides }
         delay := d.delay.getD 0 }] :=
  will_eq handlers d

/-- A parsed `GET /gone` request. -/
def reqGone : Request := { method := "GET", pathname := "/gone", query := [], body := [] }

/-- Descriptor exercising the header law: a `null` content-type, an
`undefined` extra header, and overrides that null out one key and override
the computed content-length. -/
def dC3 : HandlerDesc :=
  { «when» := none, «on» := "/gone", filter := none,
    reply := some
      { status := none
        body := some (.lit (.vBuf [7, 8, 9]))
        headers := some [("content-type", .vNull), ("x-extra", .vUndef)]
        headersOverrides := some [("x-secret", .vNull), ("content-length", .vNum 42)] },
    delay := none }

/-- C3: for a handler registered from descriptor `d` and a resolved body
`c`, the headers sent are the merge
defaults, then the descriptor headers, then the computed content-length entry, then the overrides
(right operand winning on key collision), with exactly the `null`-valued
keys then removed (`undefined` and all other values are retained). -/
theorem header_precedence (d : HandlerDesc) (h : Handler) (req : Request) (c : JVal)
    (hreg : will [] d = [h])
    (hbody : getResponseBody h req = some c) :
    ∃ r, (handleMatched h req).2 = some r ∧
      r.headers = removeNullHeaders (extendObj (extendObj (extendObj
          [("content-type", JVal.vStr "application/json")]
          ((d.reply.bind ReplyDesc.headers).getD []))
          [("content-length", JVal.vNum (byteLength c))])
        ((d.reply.bind ReplyDesc.headersOverrides).getD [])) := by
  have hh : h = registeredHandler d := by
    have hw := (will_eq [] d).symm.trans hreg
    simpa using hw.symm
  subst hh
  simp only [handleMatched, hbody]
  exact ⟨_, rfl, rfl⟩

/-- Witness for C3: for `dC3` the merge puts the overridden
`content-length: 42` in place and drops exactly the `null`-valued
`content-type` and `x-secret`, keeping the `undefined`-valued `x-extra`. -/
theorem header_precedence_witness :
    getResponseBody (registeredHandler dC3) reqGone = some (.vBuf [7, 8, 9]) ∧
    (∃ r, (handleMatched (registeredHandler dC3) reqGone).2 = some r ∧
      r.headers = removeNullHeaders (extendObj (extendObj (extendObj
          [("content-type", JVal.vStr "application/json")]
          ((dC3.reply.bind ReplyDesc.headers).getD []))
          [("content-length", JVal.vNum (byteLength (JVal.vBuf [7, 8, 9])))])
        ((dC3.reply.bind ReplyDesc.headersOverrides).getD []))) ∧
    ((handleMatched (registeredHandler dC3) reqGone).2.map Response.headers) =
      some [("x-extra", JVal.vUndef), ("content-length", JVal.vNum 42)] :=
  ⟨by decide,
   header_precedence dC3 (registeredHandler dC3) reqGone (.vBuf [7, 8, 9])
     (by simpa using will_eq [] dC3) (by decide),
   by decide⟩

/-- C8: for a matched handler whose body resolves to the same value `c` on
the `HEAD` request and on the otherwise identical non-`HEAD` request, the
`HEAD` response carries no body bytes while the non-`HEAD` one carries `c`,
the two responses' headers are identical (so `HEAD` reports the same
content-length), and those headers embed the computed
`content-length = byte length of c` beneath the overrides. -/
theorem head_request (handler : Handler) (req : Request) (m : String) (c : JVal)
    (hH : getResponseBody handler { req with method := "HEAD" } = some c)
    (hO : getResponseBody handler { req with method := m } = some c)
    (hm : m ≠ "HEAD") :
    ∃ rH rO,
      (handleMatched handler { req with method := "HEAD" }).2 = some rH ∧
      (handleMatched handler { req with method := m }).2 = some rO ∧
      rH.content = none ∧
      rO.content = some c ∧
      rH.headers = rO.headers ∧
      rH.headers = removeNullHeaders (extendObj
        (extendObj handler.reply.headers
          [("content-length", JVal.vNum (byteLength c))])
        (handler.reply.headersOverrides.getD [])) := by
  simp only [handleMatched, hH, hO]
  exact ⟨_, _, rfl, rfl, by simp, by simp [hm], rfl, rfl⟩

/-- Witness for C8: `HEAD /ping` against `hPing1` sends no content but the
same headers (content-length 2, the Buffer body's byte count) as
`GET /ping` does. -/
theorem head_request_witness :
    ∃ rH rO,
      (handleMatched hPing1 { reqPing with method := "HEAD" }).2 = some rH ∧
      (handleMatched hPing1 { reqPing with method := "GET" }).2 = some rO ∧
      rH.content = none ∧
      rO.content = some (.vBuf [1, 2]) ∧
      rH.headers = rO.headers ∧
      rH.headers = removeNullHeaders (extendObj
        (extendObj hPing1.reply.headers
          [("content-length", JVal.vNum (byteLength (JVal.vBuf [1, 2])))])
        (hPing1.reply.headersOverrides.getD [])) :=
  head_request hPing1 reqPing "GET" (.vBuf [1, 2]) (by decide) (by decide) (by decide)

/-- All fields agree except possibly the `reply.headers` mapping. -/
def sameExceptHeaders (h h' : Handler) : Prop :=
  h'.«when» = h.«when» ∧ h'.«on» = h.«on» ∧ h'.filter = h.filter ∧
  h'.delay = h.delay ∧ h'.reply.status = h.reply.status ∧
  h'.reply.body = h.reply.body ∧
  h'.reply.headersOverrides = h.reply.headersOverrides

lemma sameExceptHeaders_refl (h : Handler) : sameExceptHeaders h h :=
  ⟨rfl, rfl, rfl, rfl, rfl, rfl, rfl⟩

/-- The handler returned by `handleMatched` differs from the input at most
in `reply.headers`. -/
lemma sameExceptHeaders_handleMatched (g : Handler) (req : Request) :
    sameExceptHeaders g (handleMatched g req).1 := by
  rcases hb : getResponseBody g req with _ | c <;>
    simp [handleMatched, hb, sameExceptHeaders]

/-- The handler returned by `handleMatched` is either untouched (body
never resolved) or carries exactly the merged headers object. -/
lemma handleMatched_fst (g : Handler) (req : Request) :
    (handleMatched g req).1 = g ∨
    ∃ c, getResponseBody g req = some c ∧
      (handleMatched g req).1.reply.headers =
        extendObj (extendObj g.reply.headers
            [("content-length", .vNum (byteLength c))])
          (g.reply.headersOverrides.getD []) := by
  rcases hb : getResponseBody g req with _ | c
  · left; simp [handleMatched, hb]
  · right; exact ⟨c, rfl, by simp [handleMatched, hb]⟩

/-- On a match, the scan returns the `handleMatched` handler consed onto
the untouched tail. -/
lemma scan_fst_cons_true (g : Handler) (rest : List Handler) (req : Request)
    (hg : matchesReq g req = true) :
    (handleMockedRequest (g :: rest) req).1 = (handleMatched g req).1 :: rest := by
  rcases hh : handleMatched g req with ⟨g2, r⟩
  cases r <;> simp [handleMockedRequest, hg, hh]

/-- On a non-match, the scan keeps the head handler untouched. -/
lemma scan_fst_cons_false (g : Handler) (rest : List Handler) (req : Request)
    (hg : matchesReq g req = false) :
    (handleMockedRequest (g :: rest) req).1 =
      g :: (handleMockedRequest rest req).1 := by
  rcases ht : handleMockedRequest rest req with ⟨a, b⟩
  simp [handleMockedRequest, hg, ht]

/-- Counterexample to C4: dispatching a single `GET /ping` against the
table `[hPing1]` changes the stored handler's `reply.headers` — the merge
writes the computed `content-length` into the registered handler's headers
object (underscore's `extend` mutates its first argument), so the table is
not left exactly as it was at registration time. -/
theorem handler_mutation_counterexample :
    hPing1.reply.headers = [("content-type", JVal.vStr "application/json")] ∧
    (handleMockedRequest [hPing1] reqPing).1.map (fun h => h.reply.headers) =
      [[("content-type", JVal.vStr "application/json"),
        ("content-length", JVal.vNum 2)]] ∧
    (handleMockedRequest [hPing1] reqPing).1.map (fun h => h.reply.headers) ≠
      [hPing1].map (fun h => h.reply.headers) := by
  refine ⟨rfl, by decide, by decide⟩

/-- C4 as amended: dispatching a request changes at most the
`reply.headers` mapping of the matched handler — every other field of every
handler is exactly as registered, every non-matching handler is fully
untouched, and when the matched handler's headers do change they become
exactly the merged object (stored headers plus the computed content-length
plus the overrides). -/
theorem dispatch_mutates_only_matched_headers
    (handlers : List Handler) (req : Request) :
    List.Forall₂
      (fun h h' => sameExceptHeaders h h' ∧
        (matchesReq h req = false → h' = h) ∧
        (h' = h ∨ ∃ c, getResponseBody h req = some c ∧
          h'.reply.headers =
            extendObj (extendObj h.reply.headers
              [("content-length", .vNum (byteLength c))])
              (h.reply.headersOverrides.getD [])))
      handlers (handleMockedRequest handlers req).1 := by
  induction handlers with
  | nil => exact .nil
  | cons g rest ih =>
    cases hg : matchesReq g req with
    | false =>
      rw [scan_fst_cons_false g rest req hg]
      exact .cons ⟨sameExceptHeaders_refl g, fun _ => rfl, Or.inl rfl⟩ ih
    | true =>
      rw [scan_fst_cons_true g rest req hg]
      refine .cons ⟨sameExceptHeaders_handleMatched g req, ?_, ?_⟩ ?_
      · intro hf; rw [hg] at hf; exact Bool.noConfusion hf
      · rcases handleMatched_fst g req with h1 | ⟨c, hc, h1⟩
        · exact Or.inl h1
        · exact Or.inr ⟨c, hc, h1⟩
      · clear ih
        induction rest with
        | nil => exact .nil
        | cons a t iht =>
          exact .cons ⟨sameExceptHeaders_refl a, fun _ => rfl, Or.inl rfl⟩ iht

end MockHttp
